import Mathlib

/-!
Shallow embedding of the prompt-synchronized interactive subprocess driver of
this repository: GenericInteractiveShell in src/shell.py and InteractiveShell
in src/pexpect_shell.py, together with the command-history bookkeeping that
src/shell_mcp.py consumes. Strings are modelled as List Char; the concrete
regular expressions of the prompt pattern sets and of the echo-stripping step
are embedded as executable matchers over character lists.
-/

namespace ShellMcp

/-- Python str whitespace test restricted to the ASCII whitespace characters
space, tab, newline, carriage return, vertical tab and form feed; this is the
character set trimmed by str.strip(). -/
def isPySpace (c : Char) : Bool :=
  c == ' ' || c == '\t' || c == '\n' || c == '\r' || c == '\x0b' || c == '\x0c'

/-- Python str.strip(): remove leading and trailing whitespace. -/
def pyStrip (s : List Char) : List Char :=
  ((s.dropWhile isPySpace).reverse.dropWhile isPySpace).reverse

/-- Characters of the regex class [\$%#>] used by the default prompt
patterns of src/shell.py lines 20-24 and src/pexpect_shell.py lines 12-16. -/
def isPromptChar (c : Char) : Bool :=
  c == '$' || c == '%' || c == '#' || c == '>'

/-- Characters of the regex class [^\S\r\n] (whitespace other than carriage
return and newline) appearing in the first two default prompt patterns. -/
def isInnerWs (c : Char) : Bool :=
  c == ' ' || c == '\t' || c == '\x0b' || c == '\x0c'

/-- Helper for the two newline-anchored default patterns: after the newline,
the regex fragment [^\S\r\n]*[\$%#>] must match, optionally followed by a
space. Because the prompt characters are not in the whitespace class, the
star is deterministic: skip the inner whitespace, then test the next
character. -/
def promptTail (withSpace : Bool) (l : List Char) : Bool :=
  match l.dropWhile isInnerWs with
  | [] => false
  | c :: rest => isPromptChar c && (!withSpace || rest.take 1 == [' '])

/-- Prompt patterns. The first three constructors embed the three regexes of
COMMON_PROMPT_PATTERNS shared by src/shell.py lines 20-24 and
src/pexpect_shell.py lines 12-16; lit embeds a caller-supplied literal custom
pattern such as the REPL prompt in the repository tests. -/
inductive Pat where
  | promptSpace
  | promptNoSpace
  | promptEnd
  | lit (s : List Char)
deriving DecidableEq, Repr

/-- Newline anchor shared by the first two default patterns: the regex
fragment of an optional carriage return and a mandatory newline, followed by
the prompt tail. -/
def nlAnchor (withSpace : Bool) (l : List Char) : Bool :=
  match l with
  | [] => false
  | c :: rest =>
    if c = '\n' then promptTail withSpace rest
    else if c = '\r' then
      match rest with
      | [] => false
      | c2 :: rest2 => if c2 = '\n' then promptTail withSpace rest2 else false
    else false

/-- Third default pattern: a prompt character and a space followed by the
dollar anchor, with the MULTILINE semantics (end of string or just before a
newline) that src/shell.py line 43 selects with re.MULTILINE. -/
def endAnchor (l : List Char) : Bool :=
  match l with
  | c :: c2 :: rest => isPromptChar c && c2 == ' ' && (rest == [] || rest.take 1 == ['\n'])
  | _ => false

/-- Whether pattern p matches the buffer at position i. -/
def matchesAt (p : Pat) (buf : List Char) (i : Nat) : Bool :=
  match p with
  | .promptSpace => nlAnchor true (buf.drop i)
  | .promptNoSpace => nlAnchor false (buf.drop i)
  | .promptEnd => endAnchor (buf.drop i)
  | .lit s => s.isPrefixOf (buf.drop i)

/-- Leftmost-position search: the first index i in [start, start + n) such
that p i holds, scanning left to right exactly as re.search scans candidate
start positions. -/
def firstMatchIdx (p : Nat → Bool) : Nat → Nat → Option Nat
  | _, 0 => none
  | start, n + 1 => if p start then some start else firstMatchIdx p (start + 1) n

/-- re.search of one prompt pattern over the buffer: the start position of
the leftmost match, if any. -/
def search (pat : Pat) (buf : List Char) : Option Nat :=
  firstMatchIdx (fun i => matchesAt pat buf i) 0 (buf.length + 1)

/-- COMMON_PROMPT_PATTERNS, the default prompt pattern set of src/shell.py
lines 20-24 and src/pexpect_shell.py lines 12-16. -/
def COMMON_PROMPT_PATTERNS : List Pat := [.promptSpace, .promptNoSpace, .promptEnd]

/-- InteractiveShell pattern selection at construction (src/pexpect_shell.py
line 24): the caller-supplied patterns are used when given, otherwise the
defaults; a supplied list replaces the defaults. -/
def initPatterns (custom : Option (List Pat)) : List Pat :=
  custom.getD COMMON_PROMPT_PATTERNS

/-- Pattern-selection loop of GenericInteractiveShell._wait_for_prompt
(src/shell.py lines 122-128): try the compiled patterns in list order and
stop at the first one whose regex matches anywhere in the buffer, reporting
that pattern index and the start of its leftmost match. -/
def findPromptIdx (buf : List Char) : List Pat → Option (Nat × Nat)
  | [] => none
  | p :: ps =>
    match search p buf with
    | some s => some (0, s)
    | none => (findPromptIdx buf ps).map (fun x => (x.1 + 1, x.2))

/-- Modelled from the spec: the selection rule stated by the claims, in which
the match that starts earliest in the buffer wins and a tie at the same start
position goes to the lower pattern index. This is also the searcher semantics
that pexpect applies inside child.expect for
InteractiveShell._wait_for_prompt (src/pexpect_shell.py line 56). -/
def specEarliestAux (buf : List Char) : Nat → Option (Nat × Nat) → List Pat → Option (Nat × Nat)
  | _, best, [] => best
  | i, best, p :: ps =>
    let best2 :=
      match search p buf, best with
      | none, b => b
      | some s, none => some (i, s)
      | some s, some (j, t) => if s < t then some (i, s) else some (j, t)
    specEarliestAux buf (i + 1) best2 ps

/-- Modelled from the spec: entry point of the earliest-start selection rule. -/
def specEarliest (ps : List Pat) (buf : List Char) : Option (Nat × Nat) :=
  specEarliestAux buf 0 none ps

/-- Whether the echo regex, re.escape(command) followed by an optional
carriage return and a newline (src/shell.py line 171, src/pexpect_shell.py
line 84), matches the collected output at position i. -/
def echoAt (cmd out : List Char) (i : Nat) : Bool :=
  cmd.isPrefixOf (out.drop i) &&
    (['\r', '\n'].isPrefixOf (out.drop (i + cmd.length)) ||
     ['\n'].isPrefixOf (out.drop (i + cmd.length)))

/-- End position of the echo match starting at position 0; the greedy
optional carriage return consumes a CRLF pair when present. -/
def echoEnd (cmd out : List Char) : Nat :=
  if ['\r', '\n'].isPrefixOf (out.drop cmd.length) then cmd.length + 2 else cmd.length + 1

/-- Post-processing of run_command (src/shell.py lines 169-178 and
src/pexpect_shell.py lines 83-90): search for the echoed command followed by
a line end anywhere in the collected output; when the leftmost such match
starts at position 0, drop the echo before returning; either way the result
is stripped of surrounding whitespace. -/
def stripEcho (cmd out : List Char) : List Char :=
  match firstMatchIdx (fun i => echoAt cmd out i) 0 (out.length + 1) with
  | some 0 => pyStrip (out.drop (echoEnd cmd out))
  | _ => pyStrip out

example : search .promptSpace ['\n', '$', ' '] = some 0 := by decide
example : search .promptEnd ['$', ' '] = some 0 := by decide
example : pyStrip ['h', 'i', ' '] = ['h', 'i'] := by decide
example : stripEcho ['l', 's'] ['l', 's', '\n', 'o', 'k'] = ['o', 'k'] := by decide
example : findPromptIdx ['\n', '$', 'x', '\n', '$', ' '] COMMON_PROMPT_PATTERNS = some (0, 3) := by decide
example : specEarliest COMMON_PROMPT_PATTERNS ['\n', '$', 'x', '\n', '$', ' '] = some (1, 0) := by decide

/-- Concatenation of the chunks appended to the buffer by the background
reader of src/shell.py lines 81-100 (each chunk arrives between two
iterations of the wait loop). -/
def catChunks : List (List Char) → List Char
  | [] => []
  | r :: rs => r ++ catChunks rs

/-- Errors of the wait cycle: the TimeoutError raised at src/shell.py line
120 and src/pexpect_shell.py line 65 when the time budget is spent before
any pattern matches, and the end-of-stream condition that pexpect raises as
pexpect.EOF, surfaced as a RuntimeError at src/pexpect_shell.py lines
66-68. -/
inductive WaitErr where
  | timeoutErr
  | eofErr
deriving DecidableEq, Repr

/-- Wait loop of GenericInteractiveShell._wait_for_prompt (src/shell.py
lines 109-143). Each iteration first checks the remaining time budget,
raising TimeoutError when it is spent, then searches the buffer for a prompt
pattern in list order, and otherwise sleeps while the background reader may
append the next chunk. fuel counts the remaining iterations of the budget;
reads are the chunks the reader appends between iterations. On a match the
loop yields the buffer at match time together with the match start. -/
def waitLoop (ps : List Pat) : Nat → List (List Char) → List Char → Except WaitErr (List Char × Nat)
  | 0, _, _ => .error .timeoutErr
  | fuel + 1, reads, buf =>
    match findPromptIdx buf ps with
    | some x => .ok (buf, x.2)
    | none =>
      match reads with
      | [] => waitLoop ps fuel [] buf
      | r :: rs => waitLoop ps fuel rs (buf ++ r)

/-- Result of GenericInteractiveShell._wait_for_prompt (src/shell.py lines
130-140): the text before the match start is returned stripped, and the
buffer keeps everything from the match start onward. -/
def waitForPromptG (ps : List Pat) (fuel : Nat) (reads : List (List Char)) (buf : List Char) :
    Except WaitErr (List Char × List Char) :=
  match waitLoop ps fuel reads buf with
  | .error e => .error e
  | .ok (b, s) => .ok (pyStrip (b.take s), b.drop s)

/-- Child process handle of GenericInteractiveShell: whether stdin is
available and the poll result (the exit code once the process has exited). -/
structure Proc where
  stdinOpen : Bool
  exited : Option Int
deriving DecidableEq, Repr

/-- Errors surfaced by run_command: the RuntimeError guards of src/shell.py
lines 147-150 and src/pexpect_shell.py lines 72-73, and a propagated wait
cycle failure. -/
inductive RunErr where
  | notRunning
  | waitFailed (e : WaitErr)
deriving DecidableEq, Repr

/-- Observable channel actions of a run call. -/
inductive Action where
  | sent (line : List Char)
deriving DecidableEq, Repr

/-- Line written by GenericInteractiveShell.run_command, stdin.write of the
command plus a newline (src/shell.py line 158). -/
def writeCommandG (c : List Char) : List Char := c ++ ['\n']

/-- Line written by InteractiveShell.run_command through pexpect sendline,
the command plus the POSIX line separator (src/pexpect_shell.py line 78). -/
def sendlineP (c : List Char) : List Char := c ++ ['\n']

/-- GenericInteractiveShell.run_command (src/shell.py lines 145-178): guard
on a started process with open stdin that has not exited, clear the buffer,
send the command with a newline, wait for a prompt, then strip the leading
echo. The pair records the result and the channel actions performed. -/
def runCommandG (process : Option Proc) (ps : List Pat) (cmd : List Char) (fuel : Nat)
    (reads : List (List Char)) : Except RunErr (List Char) × List Action :=
  match process with
  | none => (.error .notRunning, [])
  | some p =>
    match p.stdinOpen, p.exited with
    | false, _ => (.error .notRunning, [])
    | true, some _ => (.error .notRunning, [])
    | true, none =>
      match waitForPromptG ps fuel reads [] with
      | .error e => (.error (.waitFailed e), [.sent (writeCommandG cmd)])
      | .ok (out, _) => (.ok (stripEcho cmd out), [.sent (writeCommandG cmd)])

/-- Child process handle of InteractiveShell: the pexpect spawn object with
its liveness flag. -/
structure ChildP where
  alive : Bool
deriving DecidableEq, Repr

/-- Wait loop behind InteractiveShell._wait_for_prompt (src/pexpect_shell.py
lines 49-68): pexpect child.expect grows the incoming buffer chunk by chunk
and applies the earliest-start searcher after each chunk, raising TIMEOUT,
surfaced as TimeoutError, when the budget is spent first. eofAfter records
whether the stream closes once the chunks are exhausted: a read at a closed
stream raises pexpect.EOF, surfaced as a RuntimeError at src/pexpect_shell.py
lines 66-68. -/
def expectLoopP (ps : List Pat) (eofAfter : Bool) :
    Nat → List (List Char) → List Char → Except WaitErr (List Char × Nat)
  | 0, _, _ => .error .timeoutErr
  | fuel + 1, reads, buf =>
    match specEarliest ps buf with
    | some x => .ok (buf, x.2)
    | none =>
      match reads with
      | [] => if eofAfter then .error .eofErr else expectLoopP ps eofAfter fuel [] buf
      | r :: rs => expectLoopP ps eofAfter fuel rs (buf ++ r)

/-- Result of InteractiveShell._wait_for_prompt (src/pexpect_shell.py lines
54-61): the text before the match, stripped. -/
def waitForPromptP (ps : List Pat) (fuel : Nat) (reads : List (List Char)) (eofAfter : Bool)
    (buf : List Char) : Except WaitErr (List Char) :=
  match expectLoopP ps eofAfter fuel reads buf with
  | .error e => .error e
  | .ok (b, s) => .ok (pyStrip (b.take s))

/-- InteractiveShell.run_command (src/pexpect_shell.py lines 70-90): guard on
a spawned, live child, send the command line, wait for a prompt, then strip
the leading echo. The pair records the result and the channel actions. -/
def runCommandP (child : Option ChildP) (ps : List Pat) (cmd : List Char) (fuel : Nat)
    (reads : List (List Char)) (eofAfter : Bool) : Except RunErr (List Char) × List Action :=
  match child with
  | none => (.error .notRunning, [])
  | some c =>
    match c.alive with
    | false => (.error .notRunning, [])
    | true =>
      match waitForPromptP ps fuel reads eofAfter [] with
      | .error e => (.error (.waitFailed e), [.sent (sendlineP cmd)])
      | .ok out => (.ok (stripEcho cmd out), [.sent (sendlineP cmd)])

/-- Outcome of a sendline call during shutdown: it returns or it raises. -/
inductive SendOutcome where
  | ok
  | err
deriving DecidableEq, Repr

/-- Outcome of the bounded expect of end of stream during shutdown: the
child exits within the grace period, the wait times out, or the expect call
raises some other exception. -/
inductive ExpectOutcome where
  | eofSeen
  | timeout
  | err
deriving DecidableEq, Repr

/-- Environment oracle for InteractiveShell.close, fixing the outcome of
each primitive that can raise, the liveness answer inside the generic
exception handler, and whether the non-forced pexpect terminate actually
kills the child (terminate without force tries a sequence of signals and may
leave the child alive; the code ignores its success flag). -/
structure CloseOracle where
  send : SendOutcome
  expectE : ExpectOutcome
  aliveAfterErr : Bool
  diesOnTerminate : Bool
deriving DecidableEq, Repr

/-- Observable actions of a close call. The kill escalation of src/shell.py
line 205 never appears: on the only path that reaches it, the preceding
uncaught wait raises first, so it is unreachable in the source. -/
inductive CloseAct where
  | sentExit (cmd : List Char)
  | waitedGrace
  | terminated
deriving DecidableEq, Repr

/-- InteractiveShell.close (src/pexpect_shell.py lines 92-107). If the child
is absent or dead, nothing happens. Otherwise the exit command is sent and
end of stream is awaited for the five second grace period; a TIMEOUT
escalates to terminate, and any other exception is swallowed, terminating the
child when it is still alive. Every raising path of the body is covered by
one of the two handlers, so the embedding is a total function: this close
always returns normally. The child ends dead after an observed end of
stream, and after terminate only when the non-forced terminate succeeds. -/
def closeP (child : Option ChildP) (exitCmd : List Char) (o : CloseOracle) :
    Option ChildP × List CloseAct :=
  match child with
  | none => (none, [])
  | some c =>
    match c.alive with
    | false => (some c, [])
    | true =>
      match o.send with
      | .err =>
        if o.aliveAfterErr then (some ⟨!o.diesOnTerminate⟩, [.terminated])
        else (some ⟨false⟩, [])
      | .ok =>
        match o.expectE with
        | .eofSeen => (some ⟨false⟩, [.sentExit exitCmd, .waitedGrace])
        | .timeout =>
          (some ⟨!o.diesOnTerminate⟩, [.sentExit exitCmd, .waitedGrace, .terminated])
        | .err =>
          if o.aliveAfterErr then
            (some ⟨!o.diesOnTerminate⟩, [.sentExit exitCmd, .terminated])
          else (some ⟨false⟩, [.sentExit exitCmd])

/-- Error propagated out of GenericInteractiveShell.close: the
subprocess.TimeoutExpired raised by the uncaught process wait that follows
terminate in the finally block (src/shell.py lines 199-202). -/
inductive CloseErr where
  | timeoutExpired
deriving DecidableEq, Repr

/-- Environment oracle for GenericInteractiveShell.close: outcome of the
graceful write of the exit line, the poll answer at entry of the finally
block (whether the child is still running after the graceful phase), and
whether the child exits within the bounded wait that follows terminate. -/
structure CloseOracleG where
  send : SendOutcome
  aliveAfterGrace : Bool
  diesOnTerminate : Bool
deriving DecidableEq, Repr

/-- GenericInteractiveShell.close (src/shell.py lines 180-214). If the
process is absent or already exited, the shutdown body is skipped. The
graceful phase writes the exit line and awaits the process for the grace
period, with every exception of that phase caught. The finally block then
polls: a child still running is sent terminate and awaited again, but this
second wait is not inside any handler, so a child that survives the
terminate signal for the grace period makes close propagate
subprocess.TimeoutExpired, and the kill branch on the next line is never
reached; when the child does exit in time, close returns normally. -/
def closeG (process : Option Proc) (o : CloseOracleG) :
    Except CloseErr (Option Proc × List CloseAct) :=
  match process with
  | none => .ok (none, [])
  | some p =>
    match p.exited with
    | some _ => .ok (some p, [])
    | none =>
      let tryActs : List CloseAct :=
        match o.send with
        | .ok => [.sentExit ['e', 'x', 'i', 't'], .waitedGrace]
        | .err => []
      if o.aliveAfterGrace then
        if o.diesOnTerminate then
          .ok (some { p with exited := some 0 }, tryActs ++ [.terminated])
        else
          .error .timeoutExpired
      else
        .ok (some { p with exited := some 0 }, tryActs)

/-- Command history entry of the session, per the data model of the spec:
output excludes the echoed command and the matched prompt, full output
includes them. -/
structure HistoryEntry where
  command : List Char
  output : List Char
  fullOutput : List Char
  timestamp : Nat
deriving DecidableEq, Repr

/-- Session state holding the command history consumed by
src/shell_mcp.py. -/
structure HSession where
  history : List HistoryEntry
deriving DecidableEq, Repr

/-- Modelled from the spec: the command-history bookkeeping of the
InteractiveShell that src/shell_mcp.py imports (get_command_history and the
full_output field read at src/shell_mcp.py lines 246-256) is not among the
sources under src, so it is modelled from the data model of the spec. Every
completed run appends one immutable entry: before is the pre-prompt text
collected by the wait cycle, matched is the matched prompt text, output is
the echo-stripped and trimmed text returned to the caller, and full output
retains echo and prompt. -/
def runWithHistory (s : HSession) (cmd : List Char) (t : Nat) (before matched : List Char) :
    HSession × List Char :=
  let out := stripEcho cmd (pyStrip before)
  let entry : HistoryEntry := ⟨cmd, out, before ++ matched, t⟩
  (⟨s.history ++ [entry]⟩, out)

/-- Modelled from the spec: the history is cleared only by this explicit
caller request. -/
def clearHistory (_s : HSession) : HSession := ⟨[]⟩

/-- Claim C2, counterexample: a command that already ends in a newline still
gets a second newline appended by the send step of both implementations, so
the newline idempotence stated by the claim fails. -/
theorem send_appends_newline_cex :
    writeCommandG ['x', '\n'] = ['x', '\n', '\n'] ∧
    sendlineP ['x', '\n'] = ['x', '\n', '\n'] ∧
    (['x', '\n', '\n'] : List Char) ≠ ['x', '\n'] := by
  refine ⟨rfl, rfl, by decide⟩

/-- Claim C2, amended: the send step of run_command always writes the
command followed by exactly one appended newline, for every command; in
particular a command without a trailing newline is sent as the command plus
a newline, but a command that already ends in a newline is sent with a
second newline appended. -/
theorem send_always_appends_newline (c : List Char) :
    writeCommandG c = c ++ ['\n'] ∧
    sendlineP c = c ++ ['\n'] ∧
    writeCommandG (c ++ ['\n']) = c ++ ['\n', '\n'] := by
  refine ⟨rfl, rfl, ?_⟩
  simp [writeCommandG]

/-- Claim C10: calling close on a session whose start was never invoked,
with the child and process handles still none, returns normally, performs no
channel action, and leaves the session state unchanged, in both
implementations. -/
theorem close_unstarted_noop :
    (∀ exitCmd o, closeP none exitCmd o = (none, [])) ∧
    (∀ o, closeG none o = .ok (none, [])) :=
  ⟨fun _ _ => rfl, fun _ => rfl⟩

/-- Claim C7 states that close never raises, swallowing every shutdown
failure. The pexpect implementation satisfies this: its close is a total
function over every oracle outcome of its raising primitives, a no-op on a
dead child, and when the child is alive it sends the exit command, waits the
bounded grace period for end of stream, and escalates to terminate on
timeout. The generic implementation violates it at the failing input shown
last: the graceful phase swallows its failures and a child that dies within
the wait after terminate yields a normal return, but a child still running
after the graceful phase that survives terminate for the grace period makes
close propagate the TimeoutExpired of the uncaught wait in the finally
block, never reaching the kill branch. -/
theorem close_shutdown_behavior :
    (∀ exitCmd o, closeP (some ⟨false⟩) exitCmd o = (some ⟨false⟩, [])) ∧
    (∀ exitCmd b d, closeP (some ⟨true⟩) exitCmd ⟨.ok, .eofSeen, b, d⟩ =
      (some ⟨false⟩, [.sentExit exitCmd, .waitedGrace])) ∧
    (∀ exitCmd b d, closeP (some ⟨true⟩) exitCmd ⟨.ok, .timeout, b, d⟩ =
      (some ⟨!d⟩, [.sentExit exitCmd, .waitedGrace, .terminated])) ∧
    (∀ d, closeG (some ⟨true, none⟩) ⟨.err, false, d⟩ = .ok (some ⟨true, some 0⟩, [])) ∧
    (∀ d, closeG (some ⟨true, none⟩) ⟨.ok, false, d⟩ =
      .ok (some ⟨true, some 0⟩, [.sentExit ['e', 'x', 'i', 't'], .waitedGrace])) ∧
    closeG (some ⟨true, none⟩) ⟨.ok, true, true⟩ =
      .ok (some ⟨true, some 0⟩, [.sentExit ['e', 'x', 'i', 't'], .waitedGrace, .terminated]) ∧
    closeG (some ⟨true, none⟩) ⟨.ok, true, false⟩ = .error .timeoutExpired := by
  refine ⟨fun _ _ => rfl, fun _ _ _ => rfl, fun _ _ _ => rfl, fun _ => rfl, fun _ => rfl,
    rfl, rfl⟩

/-- Claim C4: every completed run appends exactly one immutable history
entry at the end of the ordered history, leaving all earlier entries in
place, the last entry holds the full output including echo and matched
prompt, and the history is emptied only by the explicit clear request. -/
theorem history_append_on_run (s : HSession) (cmd : List Char) (t : Nat)
    (before matched : List Char) :
    (runWithHistory s cmd t before matched).1.history =
      s.history ++ [⟨cmd, stripEcho cmd (pyStrip before), before ++ matched, t⟩] ∧
    (runWithHistory s cmd t before matched).1.history.getLast? =
      some ⟨cmd, stripEcho cmd (pyStrip before), before ++ matched, t⟩ ∧
    clearHistory (runWithHistory s cmd t before matched).1 = ⟨[]⟩ := by
  refine ⟨rfl, ?_, rfl⟩
  simp [runWithHistory]

/-- Claim C1, counterexample: with a live child and reader chunks in which no
prompt pattern ever matches, run_command propagates the TimeoutError raised
by the wait cycle instead of returning the accumulated partial output, so a
prompt timeout during run is an error, contrary to the claim. -/
theorem run_timeout_raises_cex :
    runCommandG (some ⟨true, none⟩) COMMON_PROMPT_PATTERNS ['l', 's'] 3 [['a', 'b', 'c']] =
      (.error (.waitFailed .timeoutErr), [.sent ['l', 's', '\n']]) := rfl

/-- Claim C3, counterexample: on the buffer of a newline, a dollar, the
letter x, a newline, a dollar and a space, the first default pattern matches
starting at position 3 while the second default pattern matches starting at
position 0; the wait loop of GenericInteractiveShell reports the first
pattern at position 3, whereas the earliest-start rule of the claim would
report the second pattern at position 0. -/
theorem prompt_select_cex :
    findPromptIdx ['\n', '$', 'x', '\n', '$', ' '] COMMON_PROMPT_PATTERNS = some (0, 3) ∧
    specEarliest COMMON_PROMPT_PATTERNS ['\n', '$', 'x', '\n', '$', ' '] = some (1, 0) ∧
    ((0, 3) : Nat × Nat) ≠ (1, 0) := by
  refine ⟨by decide, by decide, by decide⟩

/-- Claim C8, counterexample: in a wait cycle that reads the characters h, i,
space, newline, dollar, space, the space read at position 2 is neither part
of the returned output, which is whitespace trimmed, nor retained in the
buffer, so not every byte read is returned or retained as the claim states. -/
theorem buffer_split_cex :
    waitForPromptG COMMON_PROMPT_PATTERNS 5 [['h', 'i', ' ', '\n', '$', ' ']] [] =
      .ok (['h', 'i'], ['\n', '$', ' ']) ∧
    (['h', 'i', ' ', '\n', '$', ' '] : List Char).count ' ' = 2 ∧
    (['h', 'i'] : List Char).count ' ' + (['\n', '$', ' '] : List Char).count ' ' = 1 := by
  refine ⟨rfl, by decide, by decide⟩

/-- Helper: a list is a Boolean prefix of itself followed by anything. -/
lemma isPrefixOf_append_self (l1 l2 : List Char) : l1.isPrefixOf (l1 ++ l2) = true := by
  induction l1 with
  | nil => simp [List.isPrefixOf]
  | cons a t ih => simp [List.isPrefixOf, ih]

/-- Helper: whatever index the leftmost-position search returns satisfies
the predicate. -/
lemma firstMatchIdx_some_pred {p : Nat → Bool} :
    ∀ (n start j : Nat), firstMatchIdx p start n = some j → p j = true := by
  intro n
  induction n with
  | zero => intro start j h; simp [firstMatchIdx] at h
  | succ n ih =>
    intro start j h
    by_cases hp : p start
    · simp [firstMatchIdx, hp] at h
      rw [← h]; exact hp
    · simp [firstMatchIdx, hp] at h
      exact ih _ _ h

/-- Helper: when the predicate holds at position zero, the leftmost search
returns zero. -/
lemma firstMatchIdx_zero_of_pos {p : Nat → Bool} (h : p 0 = true) (n : Nat) :
    firstMatchIdx p 0 (n + 1) = some 0 := by
  simp [firstMatchIdx, h]

/-- Helper: dropping the command and one newline from an output starting with
the echoed command leaves the rest. -/
lemma drop_cmd_lf (cmd rest : List Char) :
    (cmd ++ '\n' :: rest).drop (cmd.length + 1) = rest := by
  have h : cmd ++ '\n' :: rest = (cmd ++ ['\n']) ++ rest := by simp
  have hl : (cmd ++ ['\n']).length = cmd.length + 1 := by simp
  rw [h, ← hl, List.drop_left]

/-- Helper: dropping the command and a CRLF pair from an output starting with
the echoed command leaves the rest. -/
lemma drop_cmd_crlf (cmd rest : List Char) :
    (cmd ++ '\r' :: '\n' :: rest).drop (cmd.length + 2) = rest := by
  have h : cmd ++ '\r' :: '\n' :: rest = (cmd ++ ['\r', '\n']) ++ rest := by simp
  have hl : (cmd ++ ['\r', '\n']).length = cmd.length + 2 := by simp
  rw [h, ← hl, List.drop_left]

/-- Helper: the echo regex matches at position zero of an output beginning
with the command and a bare newline. -/
lemma echoAt_self_lf (cmd rest : List Char) : echoAt cmd (cmd ++ '\n' :: rest) 0 = true := by
  have h1 := isPrefixOf_append_self cmd ('\n' :: rest)
  have h2 : (cmd ++ '\n' :: rest).drop cmd.length = '\n' :: rest := List.drop_left cmd _
  simp [echoAt, h1, h2, List.isPrefixOf]

/-- Helper: the echo regex matches at position zero of an output beginning
with the command and a CRLF pair. -/
lemma echoAt_self_crlf (cmd rest : List Char) :
    echoAt cmd (cmd ++ '\r' :: '\n' :: rest) 0 = true := by
  have h1 := isPrefixOf_append_self cmd ('\r' :: '\n' :: rest)
  have h2 : (cmd ++ '\r' :: '\n' :: rest).drop cmd.length = '\r' :: '\n' :: rest :=
    List.drop_left cmd _
  simp [echoAt, h1, h2, List.isPrefixOf]

/-- Helper: echo stripping on output that starts with the command and a bare
newline removes the echo and trims the remainder. -/
lemma stripEcho_self_lf (cmd rest : List Char) :
    stripEcho cmd (cmd ++ '\n' :: rest) = pyStrip rest := by
  have h0 : (fun i => echoAt cmd (cmd ++ '\n' :: rest) i) 0 = true := echoAt_self_lf cmd rest
  have hf : ∀ n, firstMatchIdx (fun i => echoAt cmd (cmd ++ '\n' :: rest) i) 0 (n + 1) = some 0 :=
    fun n => firstMatchIdx_zero_of_pos h0 n
  have h2 : (cmd ++ '\n' :: rest).drop cmd.length = '\n' :: rest := List.drop_left cmd _
  have hrn : (['\r', '\n'] : List Char).isPrefixOf ('\n' :: rest) = false := by
    simp [List.isPrefixOf]
  have hend : echoEnd cmd (cmd ++ '\n' :: rest) = cmd.length + 1 := by
    simp [echoEnd, h2, hrn]
  simp [stripEcho, hf, hend, drop_cmd_lf]

/-- Helper: echo stripping on output that starts with the command and a CRLF
pair removes the echo and trims the remainder. -/
lemma stripEcho_self_crlf (cmd rest : List Char) :
    stripEcho cmd (cmd ++ '\r' :: '\n' :: rest) = pyStrip rest := by
  have h0 : (fun i => echoAt cmd (cmd ++ '\r' :: '\n' :: rest) i) 0 = true :=
    echoAt_self_crlf cmd rest
  have hf : ∀ n,
      firstMatchIdx (fun i => echoAt cmd (cmd ++ '\r' :: '\n' :: rest) i) 0 (n + 1) = some 0 :=
    fun n => firstMatchIdx_zero_of_pos h0 n
  have h2 : (cmd ++ '\r' :: '\n' :: rest).drop cmd.length = '\r' :: '\n' :: rest :=
    List.drop_left cmd _
  have hrn : (['\r', '\n'] : List Char).isPrefixOf ('\r' :: '\n' :: rest) = true := by
    simp [List.isPrefixOf]
  have hend : echoEnd cmd (cmd ++ '\r' :: '\n' :: rest) = cmd.length + 2 := by
    simp [echoEnd, h2, hrn]
  simp [stripEcho, hf, hend, drop_cmd_crlf]

/-- Helper: when the echo regex does not match at position zero, echo
stripping only trims whitespace. -/
lemma stripEcho_no_echo (cmd out : List Char) (h : echoAt cmd out 0 = false) :
    stripEcho cmd out = pyStrip out := by
  unfold stripEcho
  rcases hf : firstMatchIdx (fun i => echoAt cmd out i) 0 (out.length + 1) with _ | j
  · rfl
  · cases j with
    | zero =>
      have := firstMatchIdx_some_pred _ _ _ hf
      simp [h] at this
    | succ j1 => rfl

/-- Claim C5: when the collected pre-prompt output begins with exactly the
sent command followed by a line terminator, run_command removes that leading
echo and trims the remainder; when no echo stands at the start of the output
nothing is removed beyond whitespace trimming; and the full output recorded
in the history entry always retains the echo. -/
theorem echo_strip_spec :
    (∀ cmd rest : List Char, stripEcho cmd (cmd ++ '\n' :: rest) = pyStrip rest) ∧
    (∀ cmd rest : List Char, stripEcho cmd (cmd ++ '\r' :: '\n' :: rest) = pyStrip rest) ∧
    (∀ cmd out : List Char, echoAt cmd out 0 = false → stripEcho cmd out = pyStrip out) ∧
    (∀ (s : HSession) (cmd : List Char) (t : Nat) (rest matched : List Char), ∃ e : HistoryEntry,
      (runWithHistory s cmd t (cmd ++ '\n' :: rest) matched).1.history.getLast? = some e ∧
      e.fullOutput = (cmd ++ '\n' :: rest) ++ matched) := by
  refine ⟨stripEcho_self_lf, stripEcho_self_crlf, stripEcho_no_echo, ?_⟩
  intro s cmd t rest matched
  refine ⟨⟨cmd, stripEcho cmd (pyStrip (cmd ++ '\n' :: rest)), (cmd ++ '\n' :: rest) ++ matched, t⟩, ?_, rfl⟩
  simp [runWithHistory]

/-- Claim C5 witness: a concrete output in which the command text only
occurs away from the start is returned with whitespace trimming only. -/
theorem echo_strip_spec_witness :
    stripEcho ['a', 'b'] ['x', 'a', 'b', '\n'] = pyStrip ['x', 'a', 'b', '\n'] :=
  echo_strip_spec.2.2.1 ['a', 'b'] ['x', 'a', 'b', '\n'] (by decide)

/-- Claim C9, counterexample: supplying a custom pattern replaces the default
pattern set instead of adding to it, and the third default pattern matches a
prompt character and space at the very start of the buffer with no preceding
newline, so neither the additive composition nor the newline anchoring stated
by the claim holds. -/
theorem patterns_replace_cex :
    initPatterns (some [Pat.lit ['>', '>', '>', ' ']]) = [Pat.lit ['>', '>', '>', ' ']] ∧
    initPatterns (some [Pat.lit ['>', '>', '>', ' ']]) ≠
      COMMON_PROMPT_PATTERNS ++ [Pat.lit ['>', '>', '>', ' ']] ∧
    search Pat.promptEnd ['$', ' '] = some 0 := by
  refine ⟨rfl, by decide, by decide⟩

/-- Claim C6: a run call on a session that is not running, because the child
or process handle was never created, the child is no longer alive, the
process has exited, or its stdin is unavailable, fails immediately with the
not-running liveness error and performs no channel action, so nothing is
sent and no wait until timeout happens. -/
theorem run_requires_live_child :
    (∀ ps cmd fuel reads eof, runCommandP none ps cmd fuel reads eof = (.error .notRunning, [])) ∧
    (∀ ps cmd fuel reads eof,
      runCommandP (some ⟨false⟩) ps cmd fuel reads eof = (.error .notRunning, [])) ∧
    (∀ ps cmd fuel reads, runCommandG none ps cmd fuel reads = (.error .notRunning, [])) ∧
    (∀ ps cmd fuel reads (p : Proc), p.stdinOpen = false →
      runCommandG (some p) ps cmd fuel reads = (.error .notRunning, [])) ∧
    (∀ ps cmd fuel reads (p : Proc), p.exited.isSome = true →
      runCommandG (some p) ps cmd fuel reads = (.error .notRunning, [])) := by
  refine ⟨fun _ _ _ _ _ => rfl, fun _ _ _ _ _ => rfl, fun _ _ _ _ => rfl, ?_, ?_⟩
  · rintro ps cmd fuel reads ⟨st, ex⟩ h
    cases st
    · cases ex <;> rfl
    · simp at h
  · rintro ps cmd fuel reads ⟨st, ex⟩ h
    cases ex
    · simp at h
    · cases st <;> rfl

/-- Claim C6 witness: a process killed out of band, reporting an exit code,
is rejected before anything is sent. -/
theorem run_requires_live_child_witness :
    runCommandG (some ⟨true, some 9⟩) COMMON_PROMPT_PATTERNS ['l', 's'] 1 [] =
      (.error .notRunning, []) :=
  run_requires_live_child.2.2.2.2 COMMON_PROMPT_PATTERNS ['l', 's'] 1 [] ⟨true, some 9⟩ rfl

/-- Helper: when no prompt pattern matches any buffer content reachable from
the initial buffer by appending reader chunks, the wait loop of
GenericInteractiveShell exhausts its budget and raises TimeoutError. -/
lemma waitLoop_timeout (ps : List Pat) :
    ∀ (fuel : Nat) (reads : List (List Char)) (buf : List Char),
    (∀ k, k ≤ reads.length → findPromptIdx (buf ++ catChunks (reads.take k)) ps = none) →
    waitLoop ps fuel reads buf = .error .timeoutErr := by
  intro fuel
  induction fuel with
  | zero => intro reads buf _; rfl
  | succ n ih =>
    intro reads buf h
    have h0 : findPromptIdx buf ps = none := by
      have := h 0 (Nat.zero_le _)
      simpa [catChunks] using this
    cases reads with
    | nil =>
      simp only [waitLoop, h0]
      exact ih [] buf (fun k hk => by
        have hk0 : k = 0 := Nat.le_zero.mp hk
        subst hk0
        simpa [catChunks] using h0)
    | cons r rs =>
      simp only [waitLoop, h0]
      exact ih rs (buf ++ r) (fun k hk => by
        have := h (k + 1) (Nat.succ_le_succ hk)
        simpa [catChunks, List.append_assoc] using this)

/-- Claim C1, amended: when the overall timeout elapses before any prompt
pattern matches the accumulated output, run_command raises the TimeoutError
propagated from the wait cycle after having sent the command; a prompt
timeout during run is an error exactly as during start, and the partial
output is not returned. -/
theorem run_timeout_raises (ps : List Pat) (cmd : List Char) (fuel : Nat)
    (reads : List (List Char))
    (h : ∀ k, k ≤ reads.length → findPromptIdx (catChunks (reads.take k)) ps = none) :
    runCommandG (some ⟨true, none⟩) ps cmd fuel reads =
      (.error (.waitFailed .timeoutErr), [.sent (writeCommandG cmd)]) := by
  have hw : waitLoop ps fuel reads [] = .error .timeoutErr :=
    waitLoop_timeout ps fuel reads [] (fun k hk => by simpa using h k hk)
  simp [runCommandG, waitForPromptG, hw]

/-- Claim C1 witness: a concrete two-tick run over output that never shows a
prompt ends in the TimeoutError, not in a normal return. -/
theorem run_timeout_raises_witness :
    runCommandG (some ⟨true, none⟩) COMMON_PROMPT_PATTERNS ['p', 'w', 'd'] 2 [['o', 'k']] =
      (.error (.waitFailed .timeoutErr), [.sent (writeCommandG ['p', 'w', 'd'])]) :=
  run_timeout_raises COMMON_PROMPT_PATTERNS ['p', 'w', 'd'] 2 [['o', 'k']] (by decide)

/-- Claim C3, amended: the wait loop of GenericInteractiveShell selects the
lowest-indexed pattern of the pattern set that matches anywhere in the
buffer, at the leftmost start position of that single pattern; every pattern
with a lower index matches nowhere in the buffer. Consequently, when several
patterns match at the same position the lowest index is reported
deterministically, but a lower-indexed pattern matching later in the buffer
beats a higher-indexed pattern matching earlier, so the earliest-start rule
across patterns does not hold. -/
theorem prompt_select_lowest_index :
    ∀ (ps : List Pat) (buf : List Char) (i s : Nat),
    findPromptIdx buf ps = some (i, s) →
    (∃ p, ps[i]? = some p ∧ search p buf = some s) ∧
    (∀ j, j < i → ∃ q, ps[j]? = some q ∧ search q buf = none) := by
  intro ps
  induction ps with
  | nil => intro buf i s h; simp [findPromptIdx] at h
  | cons p ps ih =>
    intro buf i s h
    rcases hs : search p buf with _ | s0
    · rw [findPromptIdx, hs] at h
      rcases hmap : findPromptIdx buf ps with _ | ⟨i1, s1⟩
      · rw [hmap] at h; simp at h
      · rw [hmap] at h
        obtain ⟨hi, hs2⟩ : i1 + 1 = i ∧ s1 = s := by simpa using h
        subst hi; subst hs2
        obtain ⟨⟨q, hq, hqs⟩, hall⟩ := ih buf i1 s1 hmap
        refine ⟨⟨q, by simpa using hq, hqs⟩, ?_⟩
        intro j hj
        cases j with
        | zero => exact ⟨p, by simp, hs⟩
        | succ j1 =>
          obtain ⟨q1, hq1, hq1s⟩ := hall j1 (by omega)
          exact ⟨q1, by simpa using hq1, hq1s⟩
    · rw [findPromptIdx, hs] at h
      obtain ⟨hi, hs2⟩ : 0 = i ∧ s0 = s := by simpa using h
      subst hi; subst hs2
      refine ⟨⟨p, by simp, hs⟩, ?_⟩
      intro j hj
      exact absurd hj (Nat.not_lt_zero j)

/-- Claim C3 witness: on a buffer holding just a prompt, the loop reports the
first pattern at position zero and no earlier pattern exists. -/
theorem prompt_select_lowest_index_witness :
    (∃ p, (COMMON_PROMPT_PATTERNS)[0]? = some p ∧ search p ['\n', '$', ' '] = some 0) ∧
    (∀ j, j < 0 → ∃ q, (COMMON_PROMPT_PATTERNS)[j]? = some q ∧ search q ['\n', '$', ' '] = none) :=
  prompt_select_lowest_index COMMON_PROMPT_PATTERNS ['\n', '$', ' '] 0 0 (by decide)

/-- Helper: a successful wait loop returns the initial buffer extended by
exactly the reader chunks consumed so far; nothing read is dropped before
the split. -/
lemma waitLoop_ok_reachable (ps : List Pat) :
    ∀ (fuel : Nat) (reads : List (List Char)) (buf b : List Char) (s : Nat),
    waitLoop ps fuel reads buf = .ok (b, s) →
    ∃ k, k ≤ reads.length ∧ b = buf ++ catChunks (reads.take k) := by
  intro fuel
  induction fuel with
  | zero => intro reads buf b s h; simp [waitLoop] at h
  | succ n ih =>
    intro reads buf b s h
    rcases hf : findPromptIdx buf ps with _ | x
    · cases reads with
      | nil =>
        simp only [waitLoop, hf] at h
        obtain ⟨k, _, hb⟩ := ih [] buf b s h
        refine ⟨0, Nat.zero_le _, ?_⟩
        simpa [catChunks] using hb
      | cons r rs =>
        simp only [waitLoop, hf] at h
        obtain ⟨k, hk, hb⟩ := ih rs (buf ++ r) b s h
        refine ⟨k + 1, Nat.succ_le_succ hk, ?_⟩
        rw [hb]
        simp [catChunks, List.append_assoc]
    · simp only [waitLoop, hf, Except.ok.injEq, Prod.mk.injEq] at h
      obtain ⟨hb, _⟩ := h
      subst hb
      refine ⟨0, Nat.zero_le _, ?_⟩
      simp [catChunks]

/-- Claim C8, amended: during a run call every byte read from the child is
accumulated in the buffer, and at the prompt match the buffer is split with
nothing lost: the part before the match start is the consumed portion, whose
whitespace-trimmed value is returned to the caller, and the rest, including
the matched prompt, is retained in the buffer; the returned portion is
trimmed, so trimmed edge whitespace and a stripped echo line are the only
bytes of the consumed portion not surfaced in the returned output. -/
theorem buffer_split_no_loss (ps : List Pat) (fuel : Nat) (reads : List (List Char))
    (buf b : List Char) (s : Nat) (h : waitLoop ps fuel reads buf = .ok (b, s)) :
    (∃ k, k ≤ reads.length ∧ b = buf ++ catChunks (reads.take k)) ∧
    b.take s ++ b.drop s = b ∧
    waitForPromptG ps fuel reads buf = .ok (pyStrip (b.take s), b.drop s) := by
  refine ⟨waitLoop_ok_reachable ps fuel reads buf b s h, List.take_append_drop s b, ?_⟩
  simp [waitForPromptG, h]

/-- Claim C8 witness: the concrete wait cycle of the counterexample
instantiates the no-loss split. -/
theorem buffer_split_no_loss_witness :
    ((∃ k, k ≤ ([[ 'h', 'i', ' ', '\n', '$', ' ']] : List (List Char)).length ∧
        (['h', 'i', ' ', '\n', '$', ' '] : List Char) =
          [] ++ catChunks ([['h', 'i', ' ', '\n', '$', ' ']].take k)) ∧
      (['h', 'i', ' ', '\n', '$', ' '] : List Char).take 3 ++
        (['h', 'i', ' ', '\n', '$', ' '] : List Char).drop 3 = ['h', 'i', ' ', '\n', '$', ' '] ∧
      waitForPromptG COMMON_PROMPT_PATTERNS 5 [['h', 'i', ' ', '\n', '$', ' ']] [] =
        .ok (pyStrip ((['h', 'i', ' ', '\n', '$', ' '] : List Char).take 3),
          (['h', 'i', ' ', '\n', '$', ' '] : List Char).drop 3)) :=
  buffer_split_no_loss COMMON_PROMPT_PATTERNS 5 [['h', 'i', ' ', '\n', '$', ' ']] []
    ['h', 'i', ' ', '\n', '$', ' '] 3 rfl

/-- Helper: the newline anchor only accepts text starting with a newline or
with a carriage return and newline pair. -/
lemma nlAnchor_newline (w : Bool) (l : List Char) (h : nlAnchor w l = true) :
    l.take 1 = ['\n'] ∨ l.take 2 = ['\r', '\n'] := by
  rcases l with _ | ⟨c, rest⟩
  · simp [nlAnchor] at h
  · by_cases h1 : c = '\n'
    · subst h1; left; rfl
    · by_cases h2 : c = '\r'
      · subst h2
        rcases rest with _ | ⟨c2, rest2⟩
        · simp [nlAnchor, h1] at h
        · by_cases h3 : c2 = '\n'
          · subst h3; right; rfl
          · simp [nlAnchor, h1, h3] at h
      · simp [nlAnchor, h1, h2] at h

/-- Claim C9, amended: the effective pattern set of a session is exactly the
caller-supplied list when one is given, replacing the defaults, and exactly
the three default patterns otherwise; the first two default patterns match
only immediately after a newline or a carriage return and newline pair,
while the third default pattern matches a prompt character and space at end
of string or line without requiring any newline before it. -/
theorem patterns_default_or_custom :
    initPatterns none = COMMON_PROMPT_PATTERNS ∧
    (∀ l, initPatterns (some l) = l) ∧
    (∀ buf i, matchesAt .promptSpace buf i = true →
      (buf.drop i).take 1 = ['\n'] ∨ (buf.drop i).take 2 = ['\r', '\n']) ∧
    (∀ buf i, matchesAt .promptNoSpace buf i = true →
      (buf.drop i).take 1 = ['\n'] ∨ (buf.drop i).take 2 = ['\r', '\n']) := by
  refine ⟨rfl, fun l => rfl, ?_, ?_⟩
  · intro buf i h
    exact nlAnchor_newline true (buf.drop i) h
  · intro buf i h
    exact nlAnchor_newline false (buf.drop i) h

/-- Claim C9 witness: the newline anchoring of the first default pattern at
a concrete match position. -/
theorem patterns_default_or_custom_witness :
    ((['\n', '$', ' '] : List Char).drop 0).take 1 = ['\n'] ∨
    ((['\n', '$', ' '] : List Char).drop 0).take 2 = ['\r', '\n'] :=
  patterns_default_or_custom.2.2.1 ['\n', '$', ' '] 0 (by decide)

end ShellMcp
